import Mathlib

/-!
Verification of the message-state synchronization engine of the
SEPHealth push-notification client (`src/App.js`).

The embedding models the client state that the engine mutates — the
message list (`messages` React state) and the seen-notification ledger
(`shownNotifications` ref, a `Set` of message ids) — together with the
operations that act on it:

* `fetchMessages` (App.js lines 198–272): fetch, full replace of the
  store, cold-start bulk marking, and the per-message alert decision;
* the `statusUpdate` socket handler (lines 87–102): partial store
  update plus the conditional follow-up fetch;
* `onRefresh` (lines 274–277): user-initiated fetch;
* `sendNotificationFromMessage` (lines 279–292): the per-message
  preview trigger, which presents without touching any state.

Timestamps are integers (milliseconds since epoch, as `Date.getTime()`
values); the network is modelled by an explicit fetch outcome.
-/

/-- A message as consumed by the engine.  Only the fields the core
logic reads are modelled: `_id` (identity), `title`, `content`/`body`
(presentation payload), `status`, `deliveredAt` (optional), and
`updatedAt`.  Display-only fields (category, priority, scheduled
time, …) are omitted. -/
structure Message where
  _id : String
  title : String
  content : Option String
  body : String
  status : String
  deliveredAt : Option Int
  updatedAt : Int
  deriving DecidableEq, Repr

/-- A realtime `statusUpdate` socket event: identity, new status, and
an optional delivered timestamp. -/
structure StatusUpdate where
  messageId : String
  status : String
  deliveredAt : Option Int
  deriving DecidableEq, Repr

/-- Outcome of one HTTP fetch of `API_ENDPOINT`.  `ok data` is a 2xx
response whose JSON has truthy `success` and `data`; `badPayload` is a
2xx response without them (the code then falls through mutating
nothing); the remaining constructors all throw inside `fetchMessages`
and land in its `catch` block. -/
inductive FetchOutcome where
  | ok (data : List Message)
  | badPayload
  | netError
  | timeout
  | httpError (code : Nat)
  deriving DecidableEq, Repr

/-- The fetch outcomes that reach the `catch` block of
`fetchMessages`: network error, the 10-second `AbortController`
timeout, and a non-ok HTTP status (thrown at line 220). -/
def FetchOutcome.isFailure : FetchOutcome → Bool
  | .ok _ => false
  | .badPayload => false
  | .netError => true
  | .timeout => true
  | .httpError _ => true

/-- The client state the engine mutates: the `messages` React state
and the `shownNotifications` ledger (a JS `Set` of ids, modelled as a
list with membership). -/
structure AppState where
  messages : List Message
  shownNotifications : List String
  deriving DecidableEq, Repr

/-- Observable effects of one `fetchMessages` call: the messages
passed to `sendNotificationFromMessage` by the decision loop (the
`present` calls), whether an error popup was surfaced to the user
(`Alert.alert` in the catch block), and whether the error was written
to the console (`console.error` in the catch block). -/
structure FetchEffects where
  presented : List Message
  surfaced : Bool
  errorLogged : Bool
  deriving DecidableEq, Repr

/-- App.js line 250: `msg.deliveredAt ? new Date(msg.deliveredAt) :
new Date(msg.updatedAt)`. -/
def effectiveTimestamp (m : Message) : Int :=
  match m.deliveredAt with
  | some d => d
  | none => m.updatedAt

/-- The alert condition of App.js line 251: status is `'Sent'`, the id
is not yet in the ledger, and the effective timestamp is strictly
inside the trailing 2-minute window (`sentAt > twoMinutesAgo`). -/
def shouldAlert (seen : List String) (now : Int) (m : Message) : Bool :=
  decide (m.status = "Sent" ∧ m._id ∉ seen ∧ now - 2 * 60 * 1000 < effectiveTimestamp m)

/-- The decision loop of App.js lines 249–256: walk the fetched
messages in order; each alert-worthy one is presented and its id added
to the ledger immediately afterwards.  Returns the final ledger and
the presented messages in order. -/
def pollDecide (now : Int) (seen : List String) : List Message → List String × List Message
  | [] => (seen, [])
  | m :: rest =>
    if shouldAlert seen now m then
      let r := pollDecide now (m._id :: seen) rest
      (r.1, m :: r.2)
    else
      pollDecide now seen rest

/-- The cold-start seeding loop of App.js lines 237–241: mark every
fetched message whose status is `'Sent'` as already shown. -/
def bulkMarkSent (seen : List String) : List Message → List String
  | [] => seen
  | m :: rest =>
    bulkMarkSent (if m.status = "Sent" then m._id :: seen else seen) rest

/-- App.js lines 198–272, `fetchMessages(isPoll)`.  `isWeb` is the
module-level platform constant (line 9); `now` is `Date.now()` at
decision time.  On `ok` data the store is replaced (line 232), then
either the non-poll bulk marking (lines 236–243) or, when native and
polling, the alert decision loop (lines 247–257) runs.  A failure
mutates nothing; it surfaces a popup and logs only when `!isPoll`
(lines 261–265). -/
def fetchMessages (isWeb isPoll : Bool) (now : Int) (st : AppState)
    (outcome : FetchOutcome) : AppState × FetchEffects :=
  match outcome with
  | .ok data =>
    let st1 : AppState := { st with messages := data }
    if isPoll then
      if isWeb then
        (st1, ⟨[], false, false⟩)
      else
        let r := pollDecide now st1.shownNotifications data
        ({ st1 with shownNotifications := r.1 }, ⟨r.2, false, false⟩)
    else
      ({ st1 with shownNotifications := bulkMarkSent st1.shownNotifications data },
       ⟨[], false, false⟩)
  | .badPayload => (st, ⟨[], false, false⟩)
  | _ => (st, ⟨[], !isPoll, !isPoll⟩)

/-- App.js lines 274–277: the manual refresh calls
`fetchMessages()` with `isPoll` defaulted to `false`. -/
def onRefresh (isWeb : Bool) (now : Int) (st : AppState)
    (outcome : FetchOutcome) : AppState × FetchEffects :=
  fetchMessages isWeb false now st outcome

/-- The partial store update of App.js lines 91–95: map over the
messages, replacing `status` and `deliveredAt` of those whose `_id`
matches (the spread keeps every other field). -/
def applyPartial (messageId status : String) (deliveredAt : Option Int)
    (msgs : List Message) : List Message :=
  msgs.map fun msg =>
    if msg._id = messageId then
      { msg with status := status, deliveredAt := deliveredAt }
    else msg

/-- The `statusUpdate` socket handler, App.js lines 87–102: apply the
partial update, then report whether a follow-up full fetch is
triggered (line 98: status is `'Sent'` and the id is not in the
ledger). -/
def statusUpdateHandler (st : AppState) (u : StatusUpdate) : AppState × Bool :=
  ({ st with messages := applyPartial u.messageId u.status u.deliveredAt st.messages },
   decide (u.status = "Sent" ∧ u.messageId ∉ st.shownNotifications))

/-- App.js lines 279–292: the preview trigger presents the message
(via `Notifications.scheduleNotificationAsync` or `Alert.alert`)
without reading or writing the store or the ledger. -/
def sendNotificationFromMessage (st : AppState) (m : Message) :
    AppState × Message :=
  (st, m)

/-- Iterated preview of the same message (`n` presses of the
per-message Test button, App.js lines 461–466). -/
def previewRun (st : AppState) (m : Message) : Nat → AppState × List Message
  | 0 => (st, [])
  | n + 1 =>
    let r1 := sendNotificationFromMessage st m
    let r := previewRun r1.1 m n
    (r.1, r1.2 :: r.2)

/-- One engine-level operation: a fetch completion (with its platform
flag, poll flag, decision time and outcome), a realtime event, or a
preview press. -/
inductive Op where
  | fetch (isWeb isPoll : Bool) (now : Int) (outcome : FetchOutcome)
  | statusUpdate (u : StatusUpdate)
  | preview (m : Message)

/-- Apply one operation to the state, returning the decision-engine
`present` calls it makes (previews present too, but never through the
decision engine; their calls are not counted here). -/
def stepOp (st : AppState) : Op → AppState × List Message
  | .fetch isWeb isPoll now outcome =>
    let r := fetchMessages isWeb isPoll now st outcome
    (r.1, r.2.presented)
  | .statusUpdate u => ((statusUpdateHandler st u).1, [])
  | .preview m => ((sendNotificationFromMessage st m).1, [])

/-- Run a sequence of operations, concatenating the decision-engine
`present` calls. -/
def runOps (st : AppState) : List Op → AppState × List Message
  | [] => (st, [])
  | op :: rest =>
    let r1 := stepOp st op
    let r := runOps r1.1 rest
    (r.1, r1.2 ++ r.2)

/-- Unfolding of the alert condition. -/
lemma shouldAlert_iff (seen : List String) (now : Int) (m : Message) :
    shouldAlert seen now m = true ↔
      m.status = "Sent" ∧ m._id ∉ seen ∧ now - 2 * 60 * 1000 < effectiveTimestamp m := by
  simp [shouldAlert]

/-- Decision-loop step on an alert-worthy head: presented list. -/
lemma pollDecide_snd_cons_pos {now : Int} {seen : List String} {m : Message}
    {rest : List Message} (h : shouldAlert seen now m = true) :
    (pollDecide now seen (m :: rest)).2 = m :: (pollDecide now (m._id :: seen) rest).2 := by
  simp [pollDecide, h]

/-- Decision-loop step on an alert-worthy head: ledger. -/
lemma pollDecide_fst_cons_pos {now : Int} {seen : List String} {m : Message}
    {rest : List Message} (h : shouldAlert seen now m = true) :
    (pollDecide now seen (m :: rest)).1 = (pollDecide now (m._id :: seen) rest).1 := by
  simp [pollDecide, h]

/-- Decision-loop step on a head that does not alert. -/
lemma pollDecide_cons_neg {now : Int} {seen : List String} {m : Message}
    {rest : List Message} (h : ¬ shouldAlert seen now m = true) :
    pollDecide now seen (m :: rest) = pollDecide now seen rest := by
  simp [pollDecide, h]

/-- The decision loop only ever adds to the ledger. -/
lemma pollDecide_seen_subset (now : Int) (msgs : List Message) (seen : List String) :
    seen ⊆ (pollDecide now seen msgs).1 := by
  induction msgs generalizing seen with
  | nil => simp [pollDecide]
  | cons m rest ih =>
    by_cases h : shouldAlert seen now m = true
    · simp only [pollDecide, h, if_true]
      exact fun x hx => ih (m._id :: seen) (List.mem_cons_of_mem _ hx)
    · simp only [pollDecide, h, if_false]
      exact ih seen

/-- Every message the decision loop presents comes from the fetched
batch. -/
lemma pollDecide_alert_mem (now : Int) (msgs : List Message) (seen : List String) :
    ∀ a ∈ (pollDecide now seen msgs).2, a ∈ msgs := by
  induction msgs generalizing seen with
  | nil => simp [pollDecide]
  | cons m rest ih =>
    by_cases h : shouldAlert seen now m = true
    · simp only [pollDecide, h, if_true]
      intro a ha
      rcases List.mem_cons.mp ha with rfl | ha
      · exact List.mem_cons_self _ _
      · exact List.mem_cons_of_mem _ (ih (m._id :: seen) a ha)
    · simp only [pollDecide, h, if_false]
      intro a ha
      exact List.mem_cons_of_mem _ (ih seen a ha)

/-- Every presented message has its id in the resulting ledger
(mark-on-fire). -/
lemma pollDecide_alert_marked (now : Int) (msgs : List Message) (seen : List String) :
    ∀ a ∈ (pollDecide now seen msgs).2, a._id ∈ (pollDecide now seen msgs).1 := by
  induction msgs generalizing seen with
  | nil => simp [pollDecide]
  | cons m rest ih =>
    by_cases h : shouldAlert seen now m = true
    · simp only [pollDecide, h, if_true]
      intro a ha
      rcases List.mem_cons.mp ha with rfl | ha
      · exact pollDecide_seen_subset now rest (a._id :: seen) (List.mem_cons_self _ _)
      · exact ih (m._id :: seen) a ha
    · simp only [pollDecide, h, if_false]
      exact ih seen

/-- An id already in the ledger is never presented by the decision
loop. -/
lemma pollDecide_seen_not_alerted (now : Int) (msgs : List Message) (seen : List String)
    (id : String) (hid : id ∈ seen) :
    ∀ a ∈ (pollDecide now seen msgs).2, a._id ≠ id := by
  induction msgs generalizing seen with
  | nil => simp [pollDecide]
  | cons m rest ih =>
    by_cases h : shouldAlert seen now m = true
    · simp only [pollDecide, h, if_true]
      intro a ha
      rcases List.mem_cons.mp ha with rfl | ha
      · intro hEq
        exact ((shouldAlert_iff seen now a).mp h).2.1 (hEq ▸ hid)
      · exact ih (m._id :: seen) (List.mem_cons_of_mem _ hid) a ha
    · simp only [pollDecide, h, if_false]
      exact ih seen hid

/-- When the batch has pairwise-distinct ids, the evolving ledger is
irrelevant within the batch: the presented messages are exactly the
ones satisfying the alert condition against the initial ledger. -/
lemma pollDecide_nodup (now : Int) (msgs : List Message) (seen : List String)
    (hnd : (msgs.map Message._id).Nodup) :
    (pollDecide now seen msgs).2 = msgs.filter (shouldAlert seen now) := by
  induction msgs generalizing seen with
  | nil => simp [pollDecide]
  | cons m rest ih =>
    simp only [List.map_cons, List.nodup_cons] at hnd
    obtain ⟨hm, hrest⟩ := hnd
    have hcong : rest.filter (shouldAlert (m._id :: seen) now) =
        rest.filter (shouldAlert seen now) := by
      apply List.filter_congr
      intro x hx
      have hne : x._id ≠ m._id := fun hEq => hm (hEq ▸ List.mem_map_of_mem Message._id hx)
      simp [shouldAlert, hne]
    by_cases h : shouldAlert seen now m = true
    · rw [pollDecide_snd_cons_pos h, List.filter_cons_of_pos h,
        ih (m._id :: seen) hrest, hcong]
    · rw [pollDecide_cons_neg h, List.filter_cons_of_neg h, ih seen hrest]

/-- Membership in the ledger after cold-start bulk marking: the old
entries plus the id of every fetched message whose status is
`'Sent'`. -/
lemma mem_bulkMarkSent (msgs : List Message) (seen : List String) (x : String) :
    x ∈ bulkMarkSent seen msgs ↔
      x ∈ seen ∨ ∃ m ∈ msgs, m._id = x ∧ m.status = "Sent" := by
  induction msgs generalizing seen with
  | nil => simp [bulkMarkSent]
  | cons m rest ih =>
    simp only [bulkMarkSent]
    rw [ih]
    by_cases h : m.status = "Sent"
    · simp only [h, if_true, List.mem_cons]
      constructor
      · rintro ((rfl | hx) | ⟨m', hm', rfl, hs⟩)
        · exact Or.inr ⟨m, Or.inl rfl, rfl, h⟩
        · exact Or.inl hx
        · exact Or.inr ⟨m', Or.inr hm', rfl, hs⟩
      · rintro (hx | ⟨m', rfl | hm', rfl, hs⟩)
        · exact Or.inl (Or.inr hx)
        · exact Or.inl (Or.inl rfl)
        · exact Or.inr ⟨m', hm', rfl, hs⟩
    · simp only [h, if_false, List.mem_cons]
      constructor
      · rintro (hx | ⟨m', hm', rfl, hs⟩)
        · exact Or.inl hx
        · exact Or.inr ⟨m', Or.inr hm', rfl, hs⟩
      · rintro (hx | ⟨m', rfl | hm', rfl, hs⟩)
        · exact Or.inl hx
        · exact absurd hs h
        · exact Or.inr ⟨m', hm', rfl, hs⟩

/-- No operation ever removes an id from the ledger. -/
lemma stepOp_shown_subset (st : AppState) (op : Op) :
    st.shownNotifications ⊆ (stepOp st op).1.shownNotifications := by
  cases op with
  | fetch isWeb isPoll now outcome =>
    cases outcome with
    | ok data =>
      cases isPoll with
      | true =>
        cases isWeb with
        | true => simp [stepOp, fetchMessages]
        | false =>
          simp only [stepOp, fetchMessages]
          exact pollDecide_seen_subset now data _
      | false =>
        simp only [stepOp, fetchMessages]
        intro x hx
        exact (mem_bulkMarkSent data _ x).mpr (Or.inl hx)
    | badPayload => simp [stepOp, fetchMessages]
    | netError => simp [stepOp, fetchMessages]
    | timeout => simp [stepOp, fetchMessages]
    | httpError code => simp [stepOp, fetchMessages]
  | statusUpdate u => simp [stepOp, statusUpdateHandler]
  | preview m => simp [stepOp, sendNotificationFromMessage]

/-- An id already in the ledger is never presented by any single
operation's decision engine. -/
lemma stepOp_seen_not_alerted (st : AppState) (op : Op) (id : String)
    (hid : id ∈ st.shownNotifications) :
    ∀ a ∈ (stepOp st op).2, a._id ≠ id := by
  cases op with
  | fetch isWeb isPoll now outcome =>
    cases outcome with
    | ok data =>
      cases isPoll with
      | true =>
        cases isWeb with
        | true => simp [stepOp, fetchMessages]
        | false =>
          simp only [stepOp, fetchMessages]
          exact pollDecide_seen_not_alerted now data _ id hid
      | false => simp [stepOp, fetchMessages]
    | badPayload => simp [stepOp, fetchMessages]
    | netError => simp [stepOp, fetchMessages]
    | timeout => simp [stepOp, fetchMessages]
    | httpError code => simp [stepOp, fetchMessages]
  | statusUpdate u => simp [stepOp]
  | preview m => simp [stepOp]

/-- An id already in the ledger is never presented by the decision
engine over any subsequent sequence of operations. -/
lemma runOps_seen_not_alerted (ops : List Op) (st : AppState) (id : String)
    (hid : id ∈ st.shownNotifications) :
    ∀ a ∈ (runOps st ops).2, a._id ≠ id := by
  induction ops generalizing st with
  | nil => simp [runOps]
  | cons op rest ih =>
    simp only [runOps]
    intro a ha
    rcases List.mem_append.mp ha with ha | ha
    · exact stepOp_seen_not_alerted st op id hid a ha
    · exact ih (stepOp st op).1 (stepOp_shown_subset st op hid) a ha

/-- A nonempty duplicate-free list all of whose elements equal `m` is
the singleton `[m]`. -/
lemma eq_singleton_of_nodup_of_all_eq {α : Type} (l : List α) (m : α)
    (hnd : l.Nodup) (hall : ∀ x ∈ l, x = m) (hm : m ∈ l) : l = [m] := by
  cases l with
  | nil => cases hm
  | cons a t =>
    have ha : a = m := hall a (List.mem_cons_self _ _)
    subst ha
    cases t with
    | nil => rfl
    | cons b t' =>
      have hb : b = a := hall b (List.mem_cons_of_mem _ (List.mem_cons_self _ _))
      subst hb
      exact absurd (List.mem_cons_self _ _) (List.nodup_cons.mp hnd).1

/-- Unfolding of a successful native background fetch: store replaced,
then the decision loop runs against the current ledger. -/
lemma fetchMessages_poll_native (now : Int) (st : AppState) (data : List Message) :
    fetchMessages false true now st (.ok data) =
      (⟨data, (pollDecide now st.shownNotifications data).1⟩,
       ⟨(pollDecide now st.shownNotifications data).2, false, false⟩) := by
  simp [fetchMessages]

/-- Unfolding of a successful non-poll (user-initiated) fetch: store
replaced, ledger bulk-marked, nothing presented. -/
lemma fetchMessages_manual (isWeb : Bool) (now : Int) (st : AppState)
    (data : List Message) :
    fetchMessages isWeb false now st (.ok data) =
      (⟨data, bulkMarkSent st.shownNotifications data⟩, ⟨[], false, false⟩) := by
  simp [fetchMessages]

/-- A successful fetch always replaces the store with the fetched
data, whatever the flags. -/
lemma fetchMessages_ok_messages (isWeb isPoll : Bool) (now : Int) (st : AppState)
    (data : List Message) :
    (fetchMessages isWeb isPoll now st (.ok data)).1.messages = data := by
  cases isPoll with
  | false => simp [fetchMessages]
  | true => cases isWeb <;> simp [fetchMessages]

/-- Unfolding of a failed fetch: state untouched, nothing presented,
popup and console line exactly when the fetch was user-initiated. -/
lemma fetchMessages_failure (isWeb isPoll : Bool) (now : Int) (st : AppState)
    (o : FetchOutcome) (ho : o.isFailure = true) :
    fetchMessages isWeb isPoll now st o = (st, ⟨[], !isPoll, !isPoll⟩) := by
  cases o with
  | ok data => simp [FetchOutcome.isFailure] at ho
  | badPayload => simp [FetchOutcome.isFailure] at ho
  | netError => rfl
  | timeout => rfl
  | httpError code => rfl

/-- A sample alert-worthy message used to instantiate theorems on
concrete inputs. -/
def sA : Message := ⟨"a", "hello", none, "world", "Sent", some 10, 0⟩

/-- A sample message whose id differs from every id used alongside
it. -/
def sC : Message := ⟨"c", "t2", some "ct", "b2", "Scheduled", none, 7⟩

/-- A sample message delivered 119 seconds before decision time
1000000. -/
def sRecent : Message := ⟨"m", "fresh", none, "b", "Sent", some 881000, 0⟩

/-- The same message as `sRecent` but delivered 121 seconds before
decision time 1000000. -/
def sStale : Message := ⟨"m", "fresh", none, "b", "Sent", some 879000, 0⟩

/-- C2: on the very first fetch of the process lifetime (the non-poll
fetch issued on mount, from the empty initial state), zero alerts are
presented and the ledger afterwards contains exactly the ids of the
fetched messages whose status is `'Sent'` — in particular all N of
them become members. -/
theorem cold_start_seeding (isWeb : Bool) (now : Int) (data : List Message) :
    (fetchMessages isWeb false now ⟨[], []⟩ (.ok data)).2.presented = [] ∧
    ∀ x : String,
      x ∈ (fetchMessages isWeb false now ⟨[], []⟩ (.ok data)).1.shownNotifications ↔
        ∃ m ∈ data, m._id = x ∧ m.status = "Sent" := by
  rw [fetchMessages_manual]
  refine ⟨rfl, fun x => ?_⟩
  rw [mem_bulkMarkSent]
  simp

/-- Witness for C2 at a concrete cold-start fetch. -/
theorem cold_start_seeding_witness :
    "a" ∈ (fetchMessages false false 0 ⟨[], []⟩ (.ok [sA])).1.shownNotifications :=
  ((cold_start_seeding false 0 [sA]).2 "a").mpr ⟨sA, List.mem_cons_self _ _, rfl, rfl⟩

/-- C5: a user-initiated manual refresh never presents an alert,
whatever the platform, state, decision time, or fetch outcome — even
for a brand-new alert-worthy message. -/
theorem manual_refresh_no_alert (isWeb : Bool) (now : Int) (st : AppState)
    (o : FetchOutcome) :
    (onRefresh isWeb now st o).2.presented = [] := by
  cases o with
  | ok data => rw [onRefresh, fetchMessages_manual]
  | badPayload => rfl
  | netError => rfl
  | timeout => rfl
  | httpError code => rfl

/-- C6: full-fetch authority — after any sequence of successful
fetches the store equals exactly the content of the last one. -/
theorem full_fetch_authority (isWeb : Bool) (now : Int) (st : AppState)
    (steps : List (Bool × List Message)) (final : Bool × List Message) :
    ((steps ++ [final]).foldl
        (fun s q => (fetchMessages isWeb q.1 now s (.ok q.2)).1) st).messages =
      final.2 := by
  rw [List.foldl_append]
  simp [fetchMessages_ok_messages]

/-- C7: the realtime handler applies the partial update to the store,
leaves the ledger alone, and triggers a follow-up full fetch if and
only if the event's new status is `'Sent'` and its id is not in the
ledger. -/
theorem realtime_trigger_iff (st : AppState) (u : StatusUpdate) :
    (statusUpdateHandler st u).1.messages =
        applyPartial u.messageId u.status u.deliveredAt st.messages ∧
    (statusUpdateHandler st u).1.shownNotifications = st.shownNotifications ∧
    ((statusUpdateHandler st u).2 = true ↔
      u.status = "Sent" ∧ u.messageId ∉ st.shownNotifications) := by
  refine ⟨rfl, rfl, ?_⟩
  simp [statusUpdateHandler]

/-- C8: a partial update changes only the `status` and `deliveredAt`
fields of the messages carrying the given id, leaves every other
message (and every other field) unchanged, and is a no-op on the whole
store when the id is absent. -/
theorem applyPartial_frame (messageId status : String) (deliveredAt : Option Int)
    (msgs : List Message) :
    (applyPartial messageId status deliveredAt msgs).length = msgs.length ∧
    (∀ (i : Nat) (m m' : Message), msgs[i]? = some m →
        (applyPartial messageId status deliveredAt msgs)[i]? = some m' →
        (m._id ≠ messageId → m' = m) ∧
        (m._id = messageId →
          m'._id = m._id ∧ m'.title = m.title ∧ m'.content = m.content ∧
          m'.body = m.body ∧ m'.updatedAt = m.updatedAt ∧
          m'.status = status ∧ m'.deliveredAt = deliveredAt)) ∧
    (messageId ∉ msgs.map Message._id →
      applyPartial messageId status deliveredAt msgs = msgs) := by
  refine ⟨by simp [applyPartial], ?_, ?_⟩
  · intro i m m' hm hm'
    rw [applyPartial, List.getElem?_map, hm] at hm'
    simp only [Option.map_some'] at hm'
    have hm2 := Option.some.inj hm'
    subst hm2
    constructor
    · intro hne
      simp [if_neg hne]
    · intro heq
      simp [if_pos heq]
  · intro h
    rw [applyPartial]
    have hid : ∀ x ∈ msgs,
        (if x._id = messageId
          then ({ x with status := status, deliveredAt := deliveredAt } : Message)
          else x) = x := by
      intro x hx
      rw [if_neg]
      intro hEq
      exact h (hEq ▸ List.mem_map_of_mem Message._id hx)
    rw [List.map_congr_left hid]
    simp

/-- Witness for C8: a partial update for an absent id is a no-op. -/
theorem applyPartial_frame_witness :
    applyPartial "zzz" "Sent" (some 3) [sC] = [sC] :=
  (applyPartial_frame "zzz" "Sent" (some 3) [sC]).2.2 (by simp [sC])

/-- C3: on a native background-triggered fetch whose batch carries
pairwise-distinct ids (the store invariant), a message of the batch is
presented if and only if its status is `'Sent'`, its id is not in the
ledger, and its effective timestamp is strictly inside the trailing
2-minute window before decision time. -/
theorem background_alert_iff (st : AppState) (now : Int) (data : List Message)
    (m : Message) (hm : m ∈ data) (hnd : (data.map Message._id).Nodup) :
    m ∈ (fetchMessages false true now st (.ok data)).2.presented ↔
      m.status = "Sent" ∧ m._id ∉ st.shownNotifications ∧
        now - 2 * 60 * 1000 < effectiveTimestamp m := by
  rw [fetchMessages_poll_native]
  show m ∈ (pollDecide now st.shownNotifications data).2 ↔ _
  rw [pollDecide_nodup now data st.shownNotifications hnd, List.mem_filter,
    shouldAlert_iff]
  simp [hm]

/-- Witness for C3: with decision time 1000000, the message delivered
119 seconds earlier is presented and the one delivered 121 seconds
earlier is not. -/
theorem background_alert_iff_witness :
    sRecent ∈ (fetchMessages false true 1000000 ⟨[], []⟩ (.ok [sRecent])).2.presented ∧
    sStale ∉ (fetchMessages false true 1000000 ⟨[], []⟩ (.ok [sStale])).2.presented := by
  constructor
  · exact (background_alert_iff ⟨[], []⟩ 1000000 [sRecent] sRecent
      (List.mem_cons_self _ _) (by simp)).mpr ⟨rfl, by simp, by decide⟩
  · intro hmem
    have hc := (background_alert_iff ⟨[], []⟩ 1000000 [sStale] sStale
      (List.mem_cons_self _ _) (by simp)).mp hmem
    exact absurd hc.2.2 (by decide)

/-- C1: an alert-worthy message delivered by two background fetches
(a timer tick and a realtime-triggered fetch landing in either order)
yields exactly one `present` call for its identity: the first decision
marks the id seen, the second observes it and skips. -/
theorem alert_at_most_once (st : AppState) (b1 b2 : List Message) (m : Message)
    (now now2 : Int) (hm : m ∈ b1) (hnd : (b1.map Message._id).Nodup)
    (hstatus : m.status = "Sent") (hunseen : m._id ∉ st.shownNotifications)
    (hrecent : now - 2 * 60 * 1000 < effectiveTimestamp m) :
    (((fetchMessages false true now st (.ok b1)).2.presented ++
        (fetchMessages false true now2
          (fetchMessages false true now st (.ok b1)).1 (.ok b2)).2.presented).filter
      (fun a => decide (a._id = m._id))).length = 1 := by
  rw [fetchMessages_poll_native, fetchMessages_poll_native]
  show (List.filter (fun a => decide (a._id = m._id))
      ((pollDecide now st.shownNotifications b1).2 ++
        (pollDecide now2 (pollDecide now st.shownNotifications b1).1 b2).2)).length = 1
  have hp : shouldAlert st.shownNotifications now m = true :=
    (shouldAlert_iff _ _ _).mpr ⟨hstatus, hunseen, hrecent⟩
  have hP1 : (pollDecide now st.shownNotifications b1).2 =
      b1.filter (shouldAlert st.shownNotifications now) :=
    pollDecide_nodup now b1 st.shownNotifications hnd
  have hmem1 : m ∈ (pollDecide now st.shownNotifications b1).2 := by
    rw [hP1]
    exact List.mem_filter.mpr ⟨hm, hp⟩
  have hsingle : (pollDecide now st.shownNotifications b1).2.filter
      (fun a => decide (a._id = m._id)) = [m] := by
    rw [hP1, List.filter_filter]
    apply eq_singleton_of_nodup_of_all_eq
    · exact List.Nodup.filter _ (List.Nodup.of_map _ hnd)
    · intro x hx
      have hx' := List.mem_filter.mp hx
      have hq : x._id = m._id := by
        have := hx'.2
        simp only [Bool.and_eq_true, decide_eq_true_eq] at this
        exact this.1
      exact List.inj_on_of_nodup_map hnd hx'.1 hm hq
    · refine List.mem_filter.mpr ⟨hm, ?_⟩
      simp [hp]
  have hmark : m._id ∈ (pollDecide now st.shownNotifications b1).1 :=
    pollDecide_alert_marked now b1 st.shownNotifications m hmem1
  have hnone : (pollDecide now2 (pollDecide now st.shownNotifications b1).1 b2).2.filter
      (fun a => decide (a._id = m._id)) = [] := by
    rw [List.filter_eq_nil_iff]
    intro a ha
    simp only [decide_eq_true_eq]
    exact pollDecide_seen_not_alerted now2 b2 _ m._id hmark a ha
  rw [List.filter_append, List.length_append, hsingle, hnone]
  rfl

/-- Witness for C1: the same fresh message fetched by two overlapping
background fetches is presented exactly once. -/
theorem alert_at_most_once_witness :
    (((fetchMessages false true 1000000 ⟨[], []⟩ (.ok [sRecent])).2.presented ++
        (fetchMessages false true 1000000
          (fetchMessages false true 1000000 ⟨[], []⟩ (.ok [sRecent])).1
          (.ok [sRecent])).2.presented).filter
      (fun a => decide (a._id = sRecent._id))).length = 1 :=
  alert_at_most_once ⟨[], []⟩ [sRecent] [sRecent] sRecent 1000000 1000000
    (List.mem_cons_self _ _) (by simp) rfl (by simp) (by decide)

/-- C9: every successful user-initiated fetch — not only the first —
bulk-marks the ids of all fetched `'Sent'` messages, and such an id
can never be presented by the decision engine over any later sequence
of operations. -/
theorem manual_fetch_marks_sent (isWeb : Bool) (now : Int) (st : AppState)
    (data : List Message) (m : Message) (ops : List Op)
    (hm : m ∈ data) (hs : m.status = "Sent") :
    (∀ m' ∈ data, m'.status = "Sent" →
        m'._id ∈ (fetchMessages isWeb false now st (.ok data)).1.shownNotifications) ∧
    ∀ a ∈ (runOps (fetchMessages isWeb false now st (.ok data)).1 ops).2,
      a._id ≠ m._id := by
  rw [fetchMessages_manual]
  refine ⟨?_, ?_⟩
  · intro m' hm' hs'
    exact (mem_bulkMarkSent data st.shownNotifications m'._id).mpr
      (Or.inr ⟨m', hm', rfl, hs'⟩)
  · exact runOps_seen_not_alerted ops _ m._id
      ((mem_bulkMarkSent data st.shownNotifications m._id).mpr
        (Or.inr ⟨m, hm, rfl, hs⟩))

/-- Witness for C9 at a concrete manual fetch. -/
theorem manual_fetch_marks_sent_witness :
    "a" ∈ (fetchMessages false false 0 ⟨[], []⟩ (.ok [sA])).1.shownNotifications :=
  (manual_fetch_marks_sent false 0 ⟨[], []⟩ [sA] sA [] (List.mem_cons_self _ _)
    rfl).1 sA (List.mem_cons_self _ _) rfl

/-- C4 counterexample: a background fetch failure writes nothing to
the console — `errorLogged` is `false` — contradicting the claim that
it is "logged only". -/
theorem background_failure_not_logged :
    (fetchMessages false true 0 ⟨[], []⟩ .netError).2.errorLogged = false := rfl

/-- C4 (amended): a failed fetch (network error, timeout, or non-ok
HTTP status) mutates neither store nor ledger and presents nothing; a
user-initiated failure is surfaced (and logged), while a background
failure is silently swallowed — neither surfaced nor logged. -/
theorem fetch_failure_semantics (isWeb isPoll : Bool) (now : Int) (st : AppState)
    (o : FetchOutcome) (ho : o.isFailure = true) :
    (fetchMessages isWeb isPoll now st o).1 = st ∧
    (fetchMessages isWeb isPoll now st o).2.presented = [] ∧
    ((fetchMessages isWeb isPoll now st o).2.surfaced = true ↔ isPoll = false) ∧
    ((fetchMessages isWeb isPoll now st o).2.errorLogged = true ↔ isPoll = false) := by
  rw [fetchMessages_failure isWeb isPoll now st o ho]
  cases isPoll <;> simp

/-- Witness for C4 at a concrete timed-out user-initiated fetch. -/
theorem fetch_failure_semantics_witness :
    (fetchMessages true false 0 ⟨[], []⟩ .timeout).1 = ⟨[], []⟩ ∧
    (fetchMessages true false 0 ⟨[], []⟩ .timeout).2.presented = [] ∧
    ((fetchMessages true false 0 ⟨[], []⟩ .timeout).2.surfaced = true ↔ false = false) ∧
    ((fetchMessages true false 0 ⟨[], []⟩ .timeout).2.errorLogged = true ↔ false = false) :=
  fetch_failure_semantics true false 0 ⟨[], []⟩ .timeout rfl

/-- C10: the per-message preview presents without consulting or
mutating the store or the ledger; iterating it `n` times presents the
message `n` times and still leaves the state untouched. -/
theorem preview_frame (st : AppState) (m : Message) (n : Nat) :
    (sendNotificationFromMessage st m).1 = st ∧
    stepOp st (.preview m) = (st, []) ∧
    (previewRun st m n).1 = st ∧
    (previewRun st m n).2 = List.replicate n m := by
  refine ⟨rfl, rfl, ?_, ?_⟩
  · induction n with
    | zero => rfl
    | succ k ih => simpa [previewRun, sendNotificationFromMessage] using ih
  · induction n with
    | zero => rfl
    | succ k ih => simp [previewRun, sendNotificationFromMessage, ih, List.replicate_succ]
